import Mathlib

/-!
Verification of the software-station icon/label resolution subsystem.

This file shallowly embeds the Python modules
`software_station/icons.py`, `software_station/desktop_index.py`,
`software_station/pkg_desktop_map.py` and `software_station/accessories_map.py`.
Python dictionaries are embedded as association lists whose lookup returns the
most recently inserted binding (matching dict overwrite-on-insert semantics);
Python `Optional[str]` values become `Option String`; Python truthiness on
optional strings (`if not friendly:`) is made explicit via `truthy`.
-/

/-- Python truthiness of an `Optional[str]`: `None` and `""` are falsy. -/
def truthy : Option String → Bool
  | none => false
  | some s => !s.isEmpty

/-- Python truthiness of a `str`: only `""` is falsy. -/
def truthyStr (s : String) : Bool := !s.isEmpty

/-- Splits a character list at every character satisfying the predicate; the
separators are dropped and empty pieces are kept, as in text splitting. -/
def splitCharP (p : Char → Bool) (l : List Char) : List (List Char) :=
  l.foldr (fun ch acc =>
    if p ch then [] :: acc else (ch :: acc.headD []) :: acc.tail) [[]]

/-- Splitting a string at every occurrence of a separator character, keeping
empty pieces (the behaviour of Python `str.split(sep)` for a one-character
separator, and of `str.splitlines` for newline-separated text without
carriage returns). Implemented over the character list so that it is
kernel-computable. -/
def splitOnChar (s : String) (c : Char) : List String :=
  (splitCharP (fun x => x = c) s.data).map String.mk

/-- Python `str.split()` with no argument: split on whitespace, dropping
empty pieces. -/
def splitWs (s : String) : List String :=
  ((splitCharP Char.isWhitespace s.data).map String.mk).filter
    (fun t => !t.isEmpty)

/-- Python `str.strip()`: remove leading and trailing whitespace. -/
def pyStrip (s : String) : String :=
  String.mk
    (((s.data.dropWhile Char.isWhitespace).reverse.dropWhile
        Char.isWhitespace).reverse)

/-- Python `str.endswith(t)`, via the character lists. -/
def strEndsWith (s t : String) : Bool :=
  decide (s.data.drop (s.data.length - t.data.length) = t.data)

/-- Python `c in s` for a one-character needle. -/
def strContainsChar (s : String) (c : Char) : Bool := s.data.contains c

/-- Embeds `os.path.basename`: the part of the path after the last slash. -/
def basename (p : String) : String := (splitOnChar p '/').getLastD p

/-- A Python dict embedded as an association list. The most recent insertion
is at the head, so lookup takes the first match (last-writer-wins). -/
abbrev SMap (K V : Type) := List (K × V)

/-- Dict lookup: value of the most recently inserted binding for the key. -/
def slook {K V : Type} [DecidableEq K] (m : SMap K V) (k : K) : Option V :=
  (m.find? (fun p => decide (p.1 = k))).map Prod.snd

/-- Dict insert-or-overwrite: the new binding shadows all earlier ones. -/
def sput {K V : Type} (m : SMap K V) (k : K) (v : V) : SMap K V := (k, v) :: m

/-- Value held by the last insertion for a key in an insertion sequence
(processed first-to-last), the reference semantics for dict overwrites. -/
def lookupLast {K V : Type} [DecidableEq K] (l : List (K × V)) (k : K) : Option V :=
  (l.reverse.find? (fun p => decide (p.1 = k))).map Prod.snd

/-- Record stored in the desktop-entry index:
`{"name": name, "icon": icon, "desktop_id": did}` in `desktop_index.py`. -/
structure DRecord where
  name : Option String
  icon : Option String
  desktop_id : String
deriving DecidableEq

/-- Entry of the curated table `ACCESSORIES_MAP` (`accessories_map.py`); the
fields mirror `info.get("name")` / `info.get("icon")`, which may be absent. -/
structure CuratedEntry where
  name : Option String
  icon : Option String
deriving DecidableEq

/-- State of the `desktop_index` module: the `_index` dict plus the
`lru_cache` memo table of `best_guess`. -/
structure DIndexState where
  index : SMap String DRecord
  memo : SMap String (Option DRecord)
deriving DecidableEq

/-- Value returned by `best_guess(token)`: the currently cached answer if the
token's entry is in the memo, otherwise `_index.get(token)`. -/
def best_guess_value (st : DIndexState) (t : String) : Option DRecord :=
  match slook st.memo t with
  | some v => v
  | none => slook st.index t

/-- The `maxsize` bound of the `lru_cache` decorator on `best_guess`
(`desktop_index.py` line 93). -/
def LRU_MAXSIZE : Nat := 4096

/-- Embeds `best_guess(token)` (`desktop_index.py` lines 93-95) with its
`@lru_cache(maxsize=4096)`: the memo list is kept most-recently-used first.
A hit returns the cached answer and moves its entry to the front; a miss
reads `_index.get(token)`, inserts the answer at the front and drops the
least-recently-used entry when the cache would exceed `LRU_MAXSIZE` entries.
Returns the answer and the updated module state. -/
def best_guess_run (st : DIndexState) (t : String) :
    Option DRecord × DIndexState :=
  match slook st.memo t with
  | some v =>
    (v, { st with memo := (t, v) :: st.memo.eraseP (fun p => decide (p.1 = t)) })
  | none =>
    let v := slook st.index t
    (v, { st with memo := ((t, v) :: st.memo).take LRU_MAXSIZE })

/-- Event on the `desktop_index` module state: an `_index[t] = r` insertion
performed by the background build, or a `best_guess(t)` call. -/
inductive IndexEvent where
  | write (t : String) (r : DRecord)
  | query (t : String)

/-- Effect of one event on the module state. -/
def stepEvent (st : DIndexState) : IndexEvent → DIndexState
  | .write t r => { st with index := sput st.index t r }
  | .query t => (best_guess_run st t).2

/-- Module state after a sequence of events, starting from the empty index
and empty memo present at process startup. -/
def runEvents (evs : List IndexEvent) : DIndexState :=
  evs.foldl stepEvent ⟨[], []⟩

/-- Number of `best_guess` calls in an event sequence. -/
def queryCount (evs : List IndexEvent) : Nat :=
  evs.countP (fun e => match e with
    | .query _ => true
    | .write _ _ => false)

/-- Pairwise distinct filler tokens used to exercise LRU eviction: the i-th
token is a string of i letters. -/
def c4_tok (i : Nat) : String := String.mk (List.replicate i 'a')

/-- Queries of the first n filler tokens, in order. -/
def c4_queries (n : Nat) : List IndexEvent :=
  (List.range n).map (fun i => IndexEvent.query (c4_tok i))

/-- The curated table from `accessories_map.py`, verbatim. -/
def ACCESSORIES_MAP : SMap String CuratedEntry :=
  [ ("chromium", ⟨some "Chromium", some "chromium"⟩),
    ("firefox", ⟨some "Firefox", some "firefox"⟩),
    ("falkon", ⟨some "Falkon", some "falkon"⟩),
    ("libreoffice", ⟨some "LibreOffice", some "libreoffice-startcenter"⟩),
    ("libreoffice-writer", ⟨some "LibreOffice Writer", some "libreoffice-writer"⟩),
    ("libreoffice-calc", ⟨some "LibreOffice Calc", some "libreoffice-calc"⟩),
    ("libreoffice-impress", ⟨some "LibreOffice Impress", some "libreoffice-impress"⟩),
    ("vlc", ⟨some "VLC", some "vlc"⟩),
    ("mpv", ⟨some "MPV", some "mpv"⟩),
    ("audacity", ⟨some "Audacity", some "audacity"⟩),
    ("mate-terminal", ⟨some "Terminal", some "utilities-terminal"⟩),
    ("xterm", ⟨some "XTerm", some "utilities-terminal"⟩),
    ("vim", ⟨some "Vim", some "accessories-text-editor"⟩),
    ("gedit", ⟨some "Text Editor", some "accessories-text-editor"⟩),
    ("gparted", ⟨some "GParted", some "gparted"⟩),
    ("baobab", ⟨some "Disk Usage Analyzer", some "baobab"⟩),
    ("htop", ⟨some "System Monitor", some "utilities-system-monitor"⟩),
    ("file-roller", ⟨some "Archive Manager", some "file-roller"⟩),
    ("engrampa", ⟨some "Archive Manager", some "engrampa"⟩),
    ("telegram-desktop", ⟨some "Telegram", some "telegram-desktop"⟩),
    ("telegram", ⟨some "Telegram", some "telegram-desktop"⟩),
    ("thunderbird", ⟨some "Thunderbird", some "thunderbird"⟩),
    ("gimp", ⟨some "GIMP", some "gimp"⟩),
    ("inkscape", ⟨some "Inkscape", some "inkscape"⟩) ]

/-- Constant `ICON_FALLBACK` from `icons.py`. -/
def ICON_FALLBACK : String := "package-x-generic"

/-- Embeds `_friendly_name_guess` (`icons.py` lines 131-144): `None` when the
`desktop_index` module is unavailable, else the `"name"` field of
`best_guess(token)`. Its `lru_cache` layer returns the underlying value for
any fixed index state and is elided. -/
def _friendly_name_guess (idx : Option DIndexState) (t : String) : Option String :=
  match idx with
  | none => none
  | some d => (best_guess_value d t).bind (fun h => h.name)

/-- Embeds `_icon_name_guess` (`icons.py` lines 146-159), as
` _friendly_name_guess` but for the `"icon"` field. -/
def _icon_name_guess (idx : Option DIndexState) (t : String) : Option String :=
  match idx with
  | none => none
  | some d => (best_guess_value d t).bind (fun h => h.icon)

/-- Step 2 of `_resolve_label_and_icon_name_worker` (`icons.py` lines 175-188):
when a field is still falsy and the `pkg_desktop_map` module is present, look
up the package's desktop file path; if that path is truthy and the
`desktop_index` module is present, query it with the path's basename and fill
whichever of the two fields is still falsy. -/
def _worker_step2 (pkg : String) (pm : Option (SMap String String))
    (idx : Option DIndexState) (friendly icon_name : Option String) :
    Option String × Option String :=
  if !truthy friendly || !truthy icon_name then
    match pm with
    | none => (friendly, icon_name)
    | some m =>
      match slook m pkg with
      | none => (friendly, icon_name)
      | some desktop_path =>
        if truthyStr desktop_path then
          match idx with
          | none => (friendly, icon_name)
          | some d =>
            match best_guess_value d (basename desktop_path) with
            | none => (friendly, icon_name)
            | some hit =>
              ((if truthy friendly then friendly else hit.name),
               (if truthy icon_name then icon_name else hit.icon))
        else (friendly, icon_name)
  else (friendly, icon_name)

/-- Step 3 of `_resolve_label_and_icon_name_worker` (`icons.py` lines 190-197):
direct `desktop_index` lookup with the bare package name; each still-falsy
field is filled only when the corresponding guess is truthy. -/
def _worker_step3 (pkg : String) (idx : Option DIndexState)
    (friendly icon_name : Option String) : Option String × Option String :=
  if !truthy friendly || !truthy icon_name then
    let name_guess := _friendly_name_guess idx pkg
    let icon_guess := _icon_name_guess idx pkg
    ((if !truthy friendly && truthy name_guess then name_guess else friendly),
     (if !truthy icon_name && truthy icon_guess then icon_guess else icon_name))
  else (friendly, icon_name)

/-- Embeds `_resolve_label_and_icon_name_worker` (`icons.py` lines 161-203):
curated table first, then the pkg-to-desktop chain, then a direct index
lookup, then the package name itself as the label. Used by both the sync and
the async resolution paths. -/
def _resolve_label_and_icon_name_worker (pkg : String)
    (curated : SMap String CuratedEntry) (pm : Option (SMap String String))
    (idx : Option DIndexState) : String × Option String :=
  let info := (slook curated pkg).getD ⟨none, none⟩
  let p1 := _worker_step2 pkg pm idx info.name info.icon
  let p2 := _worker_step3 pkg idx p1.1 p1.2
  ((if truthy p2.1 then p2.1.getD pkg else pkg), p2.2)

example : _resolve_label_and_icon_name_worker "vlc" ACCESSORIES_MAP none none
    = ("VLC", some "vlc") := by decide

example : _resolve_label_and_icon_name_worker "unknown-pkg" ACCESSORIES_MAP none none
    = ("unknown-pkg", none) := by decide

/-- Abstract decoded image object (`GdkPixbuf.Pixbuf`), identified by an id. -/
abbrev Pixbuf := Nat

/-- The icon theme provider, the platform service behind
`lookup_icon_for_scale(name, size, scale, 0)` followed by `load_icon()`:
resolves an icon name at a pixel size and display scale to a decoded image,
or `none` when the theme has no match. -/
abbrev Theme := String → Nat → Nat → Option Pixbuf

/-- Key of the pixbuf cache: `(icon_name or ICON_FALLBACK, size, _scale)`. -/
abbrev IconKey := String × Nat × Nat

/-- State of the `icons.py` module owned by the main thread: the icon theme,
the current display scale `_scale`, and the `_pixbuf_cache` dict. The extra
`misses` counter instruments how many fresh theme-lookup episodes (cache
misses) have occurred; the source performs a theme lookup exactly when this
counter increases. -/
structure IconState where
  theme : Theme
  scale : Nat
  cache : SMap IconKey (Option Pixbuf)
  misses : Nat

/-- Embeds `_assert_main_thread` (`icons.py` lines 36-38): raise unless the
current thread is the main thread. -/
def _assert_main_thread (isMain : Bool) : Except String Unit :=
  if isMain then .ok () else .error "GTK must be accessed on the main thread"

/-- Embeds `_compute_scale_factor` (`icons.py` lines 40-48). The argument is
`none` when `Gdk.Display.get_default()` returns nothing, `some none` when the
display has no primary monitor, and `some (some s)` for a primary monitor of
scale factor `s`. -/
def _compute_scale_factor (display : Option (Option Nat)) : Nat :=
  match display with
  | none => 1
  | some mon => mon.getD 1

/-- Embeds `_rebuild_scale_and_clear_cache` (`icons.py` lines 50-53):
recompute `_scale` from the display and clear the whole pixbuf cache. -/
def _rebuild_scale_and_clear_cache (display : Option (Option Nat))
    (st : IconState) : IconState :=
  { st with scale := _compute_scale_factor display, cache := [] }

/-- Embeds `_on_icon_theme_change` (`icons.py` lines 55-56): clear the whole
pixbuf cache. -/
def _on_icon_theme_change (st : IconState) : IconState :=
  { st with cache := [] }

/-- The `icon_name or ICON_FALLBACK` idiom of `_load_icon_pixbuf_main`:
a falsy icon name (absent or empty) is replaced by the generic fallback. -/
def _effective_icon_name (icon_name : Option String) : String :=
  if truthy icon_name then icon_name.getD ICON_FALLBACK else ICON_FALLBACK

/-- Body of `_load_icon_pixbuf_main` (`icons.py` lines 94-129) after the
thread assertion: compute the cache key, return a cached value (possibly a
cached miss) on a hit; otherwise look the name up in the theme, fall back to
`ICON_FALLBACK`, store the result (possibly `none`) under the key. -/
def _load_icon_pixbuf_core (st : IconState) (icon_name : Option String)
    (size : Nat) : Option Pixbuf × IconState :=
  let name := _effective_icon_name icon_name
  let key : IconKey := (name, size, st.scale)
  match slook st.cache key with
  | some v => (v, st)
  | none =>
    let pix := match st.theme name size st.scale with
      | some p => some p
      | none => st.theme ICON_FALLBACK size st.scale
    (pix, { st with cache := sput st.cache key pix, misses := st.misses + 1 })

/-- Embeds `_load_icon_pixbuf_main` (`icons.py` lines 94-129), including its
leading `_assert_main_thread()` call. -/
def _load_icon_pixbuf_main (isMain : Bool) (st : IconState)
    (icon_name : Option String) (size : Nat) :
    Except String (Option Pixbuf × IconState) :=
  match _assert_main_thread isMain with
  | .error e => .error e
  | .ok _ => .ok (_load_icon_pixbuf_core st icon_name size)

/-- Embeds `init_icon_runtime` (`icons.py` lines 58-92): assert the main
thread, create the theme, then run `_rebuild_scale_and_clear_cache()` to
capture the scale and start with an empty cache. The background index kicks
are modelled separately by the build functions. -/
def init_icon_runtime (isMain : Bool) (display : Option (Option Nat))
    (theme : Theme) : Except String IconState :=
  match _assert_main_thread isMain with
  | .error e => .error e
  | .ok _ =>
    .ok (_rebuild_scale_and_clear_cache display
          { theme := theme, scale := 1, cache := [], misses := 0 })

/-- Body of `resolve_label_and_icon_sync` (`icons.py` lines 205-217) after the
thread assertion: determine `(label, icon_name)` with the worker chain, then
materialize the pixbuf through the cache. -/
def resolve_sync_core (pkg : String) (curated : SMap String CuratedEntry)
    (pm : Option (SMap String String)) (idx : Option DIndexState)
    (st : IconState) (size : Nat) : (String × Option Pixbuf) × IconState :=
  let li := _resolve_label_and_icon_name_worker pkg curated pm idx
  let ps := _load_icon_pixbuf_core st li.2 size
  ((li.1, ps.1), ps.2)

/-- Embeds `resolve_label_and_icon_sync` (`icons.py` lines 205-217), including
its leading `_assert_main_thread()` call. -/
def resolve_label_and_icon_sync (isMain : Bool) (pkg : String)
    (curated : SMap String CuratedEntry) (pm : Option (SMap String String))
    (idx : Option DIndexState) (st : IconState) (size : Nat) :
    Except String ((String × Option Pixbuf) × IconState) :=
  match _assert_main_thread isMain with
  | .error e => .error e
  | .ok _ =>
    let li := _resolve_label_and_icon_name_worker pkg curated pm idx
    match _load_icon_pixbuf_main isMain st li.2 size with
    | .error e => .error e
    | .ok ps => .ok ((li.1, ps.1), ps.2)

/-- Behaviour of the external package-database command for a given argument
vector: either stdout text, or an exception (`.error`). -/
abbrev RunEnv := List String → Except Unit String

/-- Embeds `_run` (`pkg_desktop_map.py` lines 29-49): return the command's
stdout, and swallow every failure into the empty string. -/
def _run (env : RunEnv) (cmd : List String) : String :=
  match env cmd with
  | .ok s => s
  | .error _ => ""

/-- One line of a `pkg info -l` listing as scanned by `_process_package`:
the stripped line when it is non-empty and ends in `.desktop`, else nothing. -/
def _desktop_line (line : String) : Option String :=
  let path := pyStrip line
  if truthyStr path && strEndsWith path ".desktop" then some path else none

/-- Embeds `_process_package` (`pkg_desktop_map.py` lines 51-67): list the
package's files; keep the first line ending in `.desktop`, stopping there. -/
def _process_package (env : RunEnv) (pkg : String) : String × Option String :=
  let listing := _run env ["pkg", "info", "-l", pkg]
  if !truthyStr listing then (pkg, none)
  else (pkg, (splitOnChar listing '\n').findSome? _desktop_line)

/-- Result of a background build: the produced map and the number of times
the readiness `threading.Event` was set. -/
structure BuildResult (V : Type) where
  map : SMap String V
  readySets : Nat

/-- Collection step of `build_pkg_map_async` for one completed worker
(`pkg_desktop_map.py` lines 87-91): `if desktop_path: _pkg_map[pkg] = ...`. -/
def _pkg_map_insert (env : RunEnv) (m : SMap String String) (pkg : String) :
    SMap String String :=
  let r := _process_package env pkg
  match r.2 with
  | some desktop_path =>
    if truthyStr desktop_path then sput m r.1 desktop_path else m
  | none => m

/-- Embeds the `work` body of `build_pkg_map_async` (`pkg_desktop_map.py`
lines 69-107): enumerate installed packages; when there are none, stop (the
`finally` clause still sets the readiness event). Otherwise process each
package and record truthy desktop paths. Workers own disjoint packages, so
the completion order of `as_completed` cannot affect lookups; the packages
are folded in list order. -/
def build_pkg_map_async (env : RunEnv) : BuildResult String :=
  let pkgs_txt := _run env ["pkg", "query", "%n"]
  if !truthyStr pkgs_txt then { map := [], readySets := 1 }
  else
    let pkgs := (splitOnChar pkgs_txt '\n').filter truthyStr
    { map := pkgs.foldl (_pkg_map_insert env) [], readySets := 1 }

/-- Embeds `desktop_for_pkg` (`pkg_desktop_map.py` lines 109-111). -/
def desktop_for_pkg (m : SMap String String) (pkg : String) : Option String :=
  slook m pkg

/-- A desktop-entry descriptor file as seen by the index build: its path, a
flag for the required `Desktop Entry` group, and that group's key-value
entries. -/
structure DFile where
  path : String
  hasGroup : Bool
  entries : SMap String String
deriving DecidableEq

/-- Embeds `_parse_localized_name` (`desktop_index.py` lines 33-51): probe
`Name[locale]`, then `Name[locale-without-encoding]`, then `Name[language]`,
then the bare `Name` key. -/
def _parse_localized_name (entries : SMap String String) (locale : String) :
    Option String :=
  let probes : List String :=
    if truthyStr locale then
      [locale]
        ++ (if strContainsChar locale '.' then
              [(splitOnChar locale '.').headD locale] else [])
        ++ (if strContainsChar locale '_' then
              [(splitOnChar locale '_').headD locale] else [])
    else []
  match probes.findSome? (fun p => slook entries ("Name[" ++ p ++ "]")) with
  | some v => some v
  | none => slook entries "Name"

/-- The token-to-record insertions one descriptor file contributes to
`_index` (`desktop_index.py` lines 62-80): skip files lacking the primary
group; tokens are the file's basename, the first whitespace token of `Exec`
(a whitespace-only `Exec` raises `IndexError`, so the file is skipped), and
the basename of `TryExec`. All tokens map to the same record. -/
def _file_insertions (locale : String) (f : DFile) : List (String × DRecord) :=
  if !f.hasGroup then []
  else
    let name := _parse_localized_name f.entries locale
    let icon := slook f.entries "Icon"
    let execv := (slook f.entries "Exec").getD ""
    let tryexec := (slook f.entries "TryExec").getD ""
    let did := basename f.path
    let r : DRecord := ⟨name, icon, did⟩
    if truthyStr execv && (splitWs execv).isEmpty then []
    else
      let tokens := [did]
        ++ (if truthyStr execv then [(splitWs execv).headD ""] else [])
        ++ (if truthyStr tryexec then [basename tryexec] else [])
      tokens.map (fun t => (t, r))

/-- The fixed directory tuple `_DESKTOP_DIRS` (`desktop_index.py` lines
24-28), with `os.path.expanduser` applied to the given home directory. -/
def _DESKTOP_DIRS (home : String) : List String :=
  ["/usr/local/share/applications", "/usr/share/applications",
   home ++ "/.local/share/applications"]

/-- The system-local applications directory. -/
def system_local_dir : String := "/usr/local/share/applications"

/-- The system-wide applications directory. -/
def system_wide_dir : String := "/usr/share/applications"

/-- The user-local applications directory under the given home. -/
def user_local_dir (home : String) : String :=
  home ++ "/.local/share/applications"

/-- Contents of the filesystem as seen by the index build: for a directory
path, `none` when `os.path.isdir` fails, else the globbed `*.desktop` files,
each either parsed or a load/parse exception (`.error`), which the build
skips. -/
abbrev DesktopFS := String → Option (List (Except Unit DFile))

/-- The full token-to-record insertion sequence the index build performs,
scanning the directories in `_DESKTOP_DIRS` order and each directory's files
in turn, skipping missing directories and files that fail to parse. -/
def build_insertions (home locale : String) (fs : DesktopFS) :
    List (String × DRecord) :=
  (_DESKTOP_DIRS home).foldl (fun acc dir =>
    match fs dir with
    | none => acc
    | some files => files.foldl (fun a ef =>
        match ef with
        | .error _ => a
        | .ok f => a ++ _file_insertions locale f) acc) []

/-- Embeds the `work` body of `build_index_async` (`desktop_index.py` lines
53-88): perform all insertions into `_index` in scan order (later insertions
overwrite earlier ones for the same token), and set the readiness event in
the `finally` clause. -/
def build_index_async (home locale : String) (fs : DesktopFS) :
    BuildResult DRecord :=
  { map := (build_insertions home locale fs).foldl
      (fun m tr => sput m tr.1 tr.2) [],
    readySets := 1 }

theorem slook_nil {K V : Type} [DecidableEq K] (k : K) :
    slook ([] : SMap K V) k = none := rfl

theorem slook_cons {K V : Type} [DecidableEq K] (a : K) (b : V) (m : SMap K V)
    (k : K) : slook ((a, b) :: m) k = if a = k then some b else slook m k := by
  by_cases h : a = k <;> simp [slook, List.find?, h]

theorem slook_foldl_sput {K V : Type} [DecidableEq K] (l : List (K × V))
    (m : SMap K V) (k : K) :
    slook (l.foldl (fun acc tr => sput acc tr.1 tr.2) m) k
      = (lookupLast l k).or (slook m k) := by
  induction l generalizing m with
  | nil => simp [lookupLast]
  | cons a l ih =>
    obtain ⟨a1, a2⟩ := a
    have h1 : ((a1, a2) :: l).foldl (fun acc tr => sput acc tr.1 tr.2) m
        = l.foldl (fun acc tr => sput acc tr.1 tr.2) ((a1, a2) :: m) := rfl
    rw [h1, ih]
    unfold lookupLast
    rw [List.reverse_cons, List.find?_append]
    cases hf : l.reverse.find? (fun p => decide (p.1 = k)) with
    | some v => simp
    | none =>
      by_cases hk : a1 = k <;> simp [List.find?, hk, slook_cons]

theorem best_guess_run_of_memo (st : DIndexState) (t : String)
    (r : Option DRecord) (h : slook st.memo t = some r) :
    (best_guess_run st t).1 = r := by
  unfold best_guess_run
  simp [h]

theorem slook_append_first {K V : Type} [DecidableEq K] (A B : List (K × V))
    (k : K) (v : V) (hA : ∀ x ∈ A, x.1 ≠ k) :
    slook (A ++ (k, v) :: B) k = some v := by
  unfold slook
  rw [List.find?_append]
  have h1 : A.find? (fun p => decide (p.1 = k)) = none := by
    rw [List.find?_eq_none]
    intro x hx
    simp only [decide_eq_true_eq]
    exact hA x hx
  rw [h1]
  simp [List.find?]

theorem take_cons_take {α : Type} (n : Nat) (x : α) (l : List α) :
    (x :: l.take n).take n = (x :: l).take n := by
  cases n with
  | zero => rfl
  | succ n' =>
    rw [List.take_succ_cons, List.take_succ_cons, List.take_take,
      Nat.min_eq_left (Nat.le_succ n')]

theorem take_keep {α : Type} (n : Nat) (A B : List α) (x : α)
    (h : A.length + 1 ≤ n) :
    (A ++ x :: B).take n = A ++ x :: B.take (n - A.length - 1) := by
  rw [List.take_append_eq_append_take,
    List.take_of_length_le (Nat.le_trans (Nat.le_succ _) h)]
  congr 1
  have h2 : n - A.length = (n - A.length - 1) + 1 := by omega
  rw [h2, List.take_succ_cons, Nat.add_sub_cancel]

theorem eraseP_keep {α : Type} (p : α → Bool) (A : List α) (B : List α)
    (x : α) (hx : p x = false) :
    ∃ A₂ B₂, (A ++ x :: B).eraseP p = A₂ ++ x :: B₂
      ∧ A₂.length ≤ A.length ∧ ∀ y ∈ A₂, y ∈ A := by
  induction A with
  | nil =>
    refine ⟨[], B.eraseP p, ?_, Nat.le_refl 0, by simp⟩
    rw [List.nil_append, List.eraseP_cons, hx]
    rfl
  | cons a A ih =>
    by_cases ha : p a = true
    · refine ⟨A, B, ?_, Nat.le_succ_of_le (Nat.le_refl _), by
        intro y hy
        exact List.mem_cons_of_mem a hy⟩
      rw [List.cons_append, List.eraseP_cons, ha]
      rfl
    · obtain ⟨A₂, B₂, he, hlen, hmem⟩ := ih
      have ha' : p a = false := by simpa using ha
      refine ⟨a :: A₂, B₂, ?_, by simpa using Nat.succ_le_succ hlen, ?_⟩
      · rw [List.cons_append, List.eraseP_cons, ha', he]
        rfl
      · intro y hy
        rcases List.mem_cons.mp hy with h1 | h2
        · rw [h1]
          exact List.mem_cons_self a A
        · exact List.mem_cons_of_mem a (hmem y h2)

theorem first_query_decomp (st : DIndexState) (t : String) :
    ∃ B, (stepEvent st (IndexEvent.query t)).memo
      = (t, (best_guess_run st t).1) :: B := by
  show ∃ B, ((best_guess_run st t).2).memo = (t, (best_guess_run st t).1) :: B
  unfold best_guess_run
  cases h : slook st.memo t with
  | some v => exact ⟨_, rfl⟩
  | none =>
    dsimp only
    refine ⟨st.memo.take (LRU_MAXSIZE - 1), ?_⟩
    rw [show LRU_MAXSIZE = 4095 + 1 from rfl, List.take_succ_cons]

theorem lru_preserved (evs : List IndexEvent) :
    ∀ (st : DIndexState) (A B : List (String × Option DRecord)) (t : String)
      (r : Option DRecord),
      st.memo = A ++ (t, r) :: B →
      (∀ x ∈ A, x.1 ≠ t) →
      A.length + queryCount evs + 1 ≤ LRU_MAXSIZE →
      ∃ A₃ B₃, (evs.foldl stepEvent st).memo = A₃ ++ (t, r) :: B₃
        ∧ ∀ x ∈ A₃, x.1 ≠ t := by
  induction evs with
  | nil => exact fun st A B t r hm hA _ => ⟨A, B, hm, hA⟩
  | cons e evs ih =>
    intro st A B t r hm hA hbound
    rw [List.foldl_cons]
    cases e with
    | write u s =>
      have hqc : queryCount (IndexEvent.write u s :: evs) = queryCount evs := by
        simp [queryCount, List.countP_cons]
      refine ih _ A B t r (by simpa [stepEvent] using hm) hA ?_
      rw [hqc] at hbound
      exact hbound
    | query q =>
      have hqc : queryCount (IndexEvent.query q :: evs)
          = queryCount evs + 1 := by
        simp [queryCount, List.countP_cons]
      rw [hqc] at hbound
      by_cases hqt : q = t
      · subst hqt
        have hs : slook st.memo q = some r := by
          rw [hm]
          exact slook_append_first A B q r hA
        have hmem : (stepEvent st (IndexEvent.query q)).memo
            = (q, r) :: st.memo.eraseP (fun p => decide (p.1 = q)) := by
          show ((best_guess_run st q).2).memo = _
          unfold best_guess_run
          rw [hs]
        refine ih _ [] _ q r hmem (by simp) ?_
        simp only [List.length_nil]
        omega
      · cases hs : slook st.memo q with
        | some v =>
          have hmem : (stepEvent st (IndexEvent.query q)).memo
              = (q, v) :: st.memo.eraseP (fun p => decide (p.1 = q)) := by
            show ((best_guess_run st q).2).memo = _
            unfold best_guess_run
            rw [hs]
          obtain ⟨A₂, B₂, he, hlen, hsub⟩ :=
            eraseP_keep (fun p => decide (p.1 = q)) A B (t, r)
              (decide_eq_false fun h => hqt h.symm)
          refine ih _ ((q, v) :: A₂) B₂ t r ?_ ?_ ?_
          · rw [hmem, hm, he]
            rfl
          · intro x hx
            rcases List.mem_cons.mp hx with h1 | h2
            · rw [h1]
              exact hqt
            · exact hA x (hsub x h2)
          · simp only [List.length_cons]
            omega
        | none =>
          have hmem : (stepEvent st (IndexEvent.query q)).memo
              = ((q, slook st.index q) :: st.memo).take LRU_MAXSIZE := by
            show ((best_guess_run st q).2).memo = _
            unfold best_guess_run
            rw [hs]
          refine ih _ ((q, slook st.index q) :: A)
            (B.take (LRU_MAXSIZE - A.length - 2)) t r ?_ ?_ ?_
          · rw [hmem, hm,
              show ((q, slook st.index q) :: (A ++ (t, r) :: B))
                = (((q, slook st.index q) :: A) ++ (t, r) :: B) from rfl,
              take_keep LRU_MAXSIZE _ B (t, r) (by simp only [List.length_cons]; omega)]
            simp only [List.length_cons]
            rw [show LRU_MAXSIZE - (A.length + 1) - 1
                = LRU_MAXSIZE - A.length - 2 from by omega]
          · intro x hx
            rcases List.mem_cons.mp hx with h1 | h2
            · rw [h1]
              exact hqt
            · exact hA x h2
          · simp only [List.length_cons]
            omega

theorem load_core_hit (st : IconState) (i : Option String) (s : Nat)
    (v : Option Pixbuf)
    (h : slook st.cache (_effective_icon_name i, s, st.scale) = some v) :
    _load_icon_pixbuf_core st i s = (v, st) := by
  unfold _load_icon_pixbuf_core
  simp [h]

theorem load_core_caches (st : IconState) (i : Option String) (s : Nat) :
    slook ((_load_icon_pixbuf_core st i s).2).cache
        (_effective_icon_name i, s, st.scale)
      = some ((_load_icon_pixbuf_core st i s).1)
    ∧ ((_load_icon_pixbuf_core st i s).2).scale = st.scale := by
  unfold _load_icon_pixbuf_core
  cases h : slook st.cache (_effective_icon_name i, s, st.scale) with
  | some v => simp [h]
  | none => simp [h, sput, slook_cons]

/-- Two optional strings are interchangeable for the resolution chain when
they agree on truthiness and are equal whenever truthy (so `some ""` matches
`none`). -/
def teq (a b : Option String) : Prop :=
  truthy a = truthy b ∧ (truthy a = true → a = b)

theorem teq_refl (a : Option String) : teq a a := ⟨rfl, fun _ => rfl⟩

/-- Python dict `.get` on an absent key: replacing an empty-string field by an
absent one. -/
def blank_opt (o : Option String) : Option String :=
  if truthy o then o else none

theorem teq_blank (a : Option String) : teq a (blank_opt a) := by
  unfold blank_opt
  by_cases h : truthy a = true
  · simp [h]
    exact ⟨rfl, fun _ => rfl⟩
  · simp [h]
    constructor
    · simp [truthy]
      exact Bool.not_eq_true _ ▸ (by simp [h] : truthy a = false)
    · intro hc
      exact absurd hc h

theorem teq_step2 (pkg : String) (pm : Option (SMap String String))
    (idx : Option DIndexState) {f₁ f₂ i₁ i₂ : Option String}
    (hf : teq f₁ f₂) (hi : teq i₁ i₂) :
    teq (_worker_step2 pkg pm idx f₁ i₁).1 (_worker_step2 pkg pm idx f₂ i₂).1
    ∧ teq (_worker_step2 pkg pm idx f₁ i₁).2 (_worker_step2 pkg pm idx f₂ i₂).2 := by
  unfold _worker_step2
  rw [hf.1, hi.1]
  by_cases hg : (!truthy f₂ || !truthy i₂) = true
  case neg =>
    simp only [if_neg hg]
    exact ⟨hf, hi⟩
  case pos =>
    simp only [if_pos hg]
    cases pm with
    | none => exact ⟨hf, hi⟩
    | some m =>
      dsimp only
      cases slook m pkg with
      | none => exact ⟨hf, hi⟩
      | some desktop_path =>
        dsimp only
        by_cases hp : truthyStr desktop_path = true
        case neg =>
          simp only [if_neg hp]
          exact ⟨hf, hi⟩
        case pos =>
          simp only [if_pos hp]
          cases idx with
          | none => exact ⟨hf, hi⟩
          | some d =>
            dsimp only
            cases best_guess_value d (basename desktop_path) with
            | none => exact ⟨hf, hi⟩
            | some hit =>
              dsimp only
              constructor
              · by_cases htf : truthy f₂ = true
                case pos => simp only [if_pos htf]; exact hf
                case neg => simp only [if_neg htf]; exact teq_refl _
              · by_cases hti : truthy i₂ = true
                case pos => simp only [if_pos hti]; exact hi
                case neg => simp only [if_neg hti]; exact teq_refl _

theorem teq_step3 (pkg : String) (idx : Option DIndexState)
    {f₁ f₂ i₁ i₂ : Option String} (hf : teq f₁ f₂) (hi : teq i₁ i₂) :
    teq (_worker_step3 pkg idx f₁ i₁).1 (_worker_step3 pkg idx f₂ i₂).1
    ∧ teq (_worker_step3 pkg idx f₁ i₁).2 (_worker_step3 pkg idx f₂ i₂).2 := by
  unfold _worker_step3
  rw [hf.1, hi.1]
  by_cases hg : (!truthy f₂ || !truthy i₂) = true
  case neg =>
    simp only [if_neg hg]
    exact ⟨hf, hi⟩
  case pos =>
    simp only [if_pos hg]
    constructor
    · cases htf : truthy f₂ with
      | true => simp only [htf, Bool.not_true, Bool.false_and, if_false]; exact hf
      | false =>
        simp only [htf, Bool.not_false, Bool.true_and]
        cases hng : truthy (_friendly_name_guess idx pkg) with
        | true => simp only [if_true]; exact teq_refl _
        | false => simp only [Bool.false_eq_true, if_false]; exact hf
    · cases hti : truthy i₂ with
      | true => simp only [hti, Bool.not_true, Bool.false_and, if_false]; exact hi
      | false =>
        simp only [hti, Bool.not_false, Bool.true_and]
        cases hig : truthy (_icon_name_guess idx pkg) with
        | true => simp only [if_true]; exact teq_refl _
        | false => simp only [Bool.false_eq_true, if_false]; exact hi

theorem label_eq_of_teq {f₁ f₂ : Option String} (h : teq f₁ f₂) (pkg : String) :
    (if truthy f₁ then f₁.getD pkg else pkg)
      = (if truthy f₂ then f₂.getD pkg else pkg) := by
  rw [h.1]
  by_cases ht : truthy f₂ = true
  · simp only [ht, if_true]
    rw [h.2 (h.1.trans ht)]
  · have : truthy f₂ = false := by simpa using ht
    simp [this]

theorem effective_name_eq_of_teq {i₁ i₂ : Option String} (h : teq i₁ i₂) :
    _effective_icon_name i₁ = _effective_icon_name i₂ := by
  unfold _effective_icon_name
  rw [h.1]
  by_cases ht : truthy i₂ = true
  · simp only [ht, if_true]
    rw [h.2 (h.1.trans ht)]
  · have : truthy i₂ = false := by simpa using ht
    simp [this]

theorem load_core_congr (st : IconState) (s : Nat) {i₁ i₂ : Option String}
    (h : _effective_icon_name i₁ = _effective_icon_name i₂) :
    _load_icon_pixbuf_core st i₁ s = _load_icon_pixbuf_core st i₂ s := by
  unfold _load_icon_pixbuf_core
  rw [h]

theorem worker_congr_entry (pkg : String) (rest : SMap String CuratedEntry)
    (pm : Option (SMap String String)) (idx : Option DIndexState)
    (e₁ e₂ : CuratedEntry) (hn : teq e₁.name e₂.name)
    (hic : teq e₁.icon e₂.icon) :
    (_resolve_label_and_icon_name_worker pkg ((pkg, e₁) :: rest) pm idx).1
      = (_resolve_label_and_icon_name_worker pkg ((pkg, e₂) :: rest) pm idx).1
    ∧ teq (_resolve_label_and_icon_name_worker pkg ((pkg, e₁) :: rest) pm idx).2
        (_resolve_label_and_icon_name_worker pkg ((pkg, e₂) :: rest) pm idx).2 := by
  unfold _resolve_label_and_icon_name_worker
  have h1 : slook ((pkg, e₁) :: rest) pkg = some e₁ := by
    rw [slook_cons]
    simp
  have h2 : slook ((pkg, e₂) :: rest) pkg = some e₂ := by
    rw [slook_cons]
    simp
  rw [h1, h2]
  simp only [Option.getD_some]
  have hs2 := teq_step2 pkg pm idx hn hic
  have hs3 := teq_step3 pkg idx hs2.1 hs2.2
  exact ⟨label_eq_of_teq hs3.1 pkg, hs3.2⟩

theorem findSome?_first {α β : Type} (f : α → Option β) (pre : List α) (p : α)
    (post : List α) (b : β) (hpre : ∀ l ∈ pre, f l = none) (hp : f p = some b) :
    (pre ++ p :: post).findSome? f = some b := by
  induction pre with
  | nil => simp [List.findSome?_cons, hp]
  | cons a l ih =>
    rw [List.cons_append, List.findSome?_cons,
      hpre a (List.mem_cons_self a l)]
    exact ih (fun x hx => hpre x (List.mem_cons_of_mem a hx))

theorem findSome?_none {α β : Type} (f : α → Option β) (ls : List α)
    (h : ∀ l ∈ ls, f l = none) : ls.findSome? f = none := by
  induction ls with
  | nil => rfl
  | cons a l ih =>
    rw [List.findSome?_cons, h a (List.mem_cons_self a l)]
    exact ih (fun x hx => h x (List.mem_cons_of_mem a hx))

theorem findSome?_ends (ls : List String) (q : String)
    (h : ls.findSome? _desktop_line = some q) :
    strEndsWith q ".desktop" = true := by
  induction ls with
  | nil => cases h
  | cons a l ih =>
    rw [List.findSome?_cons] at h
    cases ha : _desktop_line a with
    | some p =>
      rw [ha] at h
      cases h
      have := ha
      simp only [_desktop_line] at this
      by_cases hc :
          (truthyStr (pyStrip a) && strEndsWith (pyStrip a) ".desktop") = true
      · rw [if_pos hc] at this
        cases this
        rw [Bool.and_eq_true] at hc
        exact hc.2
      · rw [if_neg hc] at this
        cases this
    | none =>
      rw [ha] at h
      exact ih h

theorem process_package_ends (env : RunEnv) (pkg : String) (q : String)
    (h : (_process_package env pkg).2 = some q) :
    strEndsWith q ".desktop" = true := by
  simp only [_process_package] at h
  by_cases hl : (!truthyStr (_run env ["pkg", "info", "-l", pkg])) = true
  · rw [if_pos hl] at h
    cases h
  · rw [if_neg hl] at h
    exact findSome?_ends _ q h

theorem pkg_map_insert_all (env : RunEnv) (m : SMap String String)
    (pkg : String)
    (hm : m.all (fun p => strEndsWith p.2 ".desktop") = true) :
    (_pkg_map_insert env m pkg).all
      (fun p => strEndsWith p.2 ".desktop") = true := by
  unfold _pkg_map_insert
  dsimp only
  cases hr : (_process_package env pkg).2 with
  | none => exact hm
  | some path =>
    dsimp only
    by_cases ht : truthyStr path = true
    · rw [if_pos ht]
      have hd := process_package_ends env pkg path hr
      simp [sput, hd, hm]
    · rw [if_neg ht]
      exact hm

theorem pkg_fold_all (env : RunEnv) (pkgs : List String) :
    ∀ (m : SMap String String),
      m.all (fun p => strEndsWith p.2 ".desktop") = true →
      (pkgs.foldl (_pkg_map_insert env) m).all
        (fun p => strEndsWith p.2 ".desktop") = true := by
  induction pkgs with
  | nil => exact fun m hm => hm
  | cons a l ih => exact fun m hm => ih _ (pkg_map_insert_all env m a hm)

/-- Claim C1, counterexample: a package that is a key of the curated table but
whose curated name is the empty string does not get the table's name back as
its label: for the table binding `"p"` to name `""` and icon `"vlc"`, the
worker returns label `"p"`, not the curated name `""`. -/
theorem c1_counterexample :
    _resolve_label_and_icon_name_worker "p" [("p", ⟨some "", some "vlc"⟩)]
      none none = ("p", some "vlc")
    ∧ ("p" : String) ≠ "" := by
  constructor
  · rfl
  · decide

/-- Claim C1 (amended): for every package name bound in the curated table to
an entry whose name and icon are present and non-empty, the worker (used by
both the sync and async resolution paths) returns exactly the curated name as
the label and the curated icon as the icon name, for every state of the
package-to-desktop map and of the desktop-entry index (so neither is
consulted for those fields). -/
theorem c1_curated_wins (pkg : String) (curated : SMap String CuratedEntry)
    (pm : Option (SMap String String)) (idx : Option DIndexState)
    (e : CuratedEntry) (hcur : slook curated pkg = some e)
    (hn : truthy e.name = true) (hi : truthy e.icon = true) :
    _resolve_label_and_icon_name_worker pkg curated pm idx
      = (e.name.getD pkg, e.icon) := by
  unfold _resolve_label_and_icon_name_worker
  rw [hcur]
  simp only [Option.getD_some]
  have hs2 : _worker_step2 pkg pm idx e.name e.icon = (e.name, e.icon) := by
    unfold _worker_step2
    rw [if_neg]
    simp [hn, hi]
  have hs3 : _worker_step3 pkg idx e.name e.icon = (e.name, e.icon) := by
    unfold _worker_step3
    rw [if_neg]
    simp [hn, hi]
  rw [hs2]
  dsimp only
  rw [hs3]
  dsimp only
  rw [if_pos hn]

/-- Claim C1, witness: resolving `"vlc"` against the shipped curated table
returns label `"VLC"` and icon name `"vlc"` even when both the
package-to-desktop map and the desktop-entry index hold conflicting data for
`"vlc"`. -/
theorem c1_witness :
    slook ACCESSORIES_MAP "vlc" = some ⟨some "VLC", some "vlc"⟩
    ∧ _resolve_label_and_icon_name_worker "vlc" ACCESSORIES_MAP
        (some [("vlc", "/usr/local/share/applications/weird.desktop")])
        (some ⟨[("vlc", ⟨some "Other", some "other-icon", "vlc"⟩),
               ("weird.desktop", ⟨some "Weird", some "weird", "weird.desktop"⟩)],
              []⟩)
      = ("VLC", some "vlc") := by
  refine ⟨by decide, ?_⟩
  exact c1_curated_wins "vlc" ACCESSORIES_MAP _ _ ⟨some "VLC", some "vlc"⟩
    (by decide) (by decide) (by decide)

/-- Claim C10: a curated entry whose name or icon is the empty string behaves
through the whole synchronous resolution exactly like an entry from which
those falsy fields are absent (`blank_opt` erases exactly the empty-string
fields): same label, same pixbuf, same final cache state, because every
presence check in the chain is a truthiness test. -/
theorem c10_blank_fields_fall_through (pkg : String)
    (rest : SMap String CuratedEntry) (pm : Option (SMap String String))
    (idx : Option DIndexState) (st : IconState) (size : Nat)
    (e : CuratedEntry) :
    resolve_sync_core pkg ((pkg, e) :: rest) pm idx st size
      = resolve_sync_core pkg ((pkg, ⟨blank_opt e.name, blank_opt e.icon⟩) :: rest)
          pm idx st size := by
  have hw := worker_congr_entry pkg rest pm idx e
    ⟨blank_opt e.name, blank_opt e.icon⟩ (teq_blank e.name) (teq_blank e.icon)
  unfold resolve_sync_core
  dsimp only
  rw [hw.1, load_core_congr st size (effective_name_eq_of_teq hw.2)]

/-- Claim C10, witness: with an entry carrying empty-string name and icon for
a package absent from all other sources, resolution behaves as if the entry
were absent. -/
theorem c10_witness :
    resolve_sync_core "p" [("p", ⟨some "", some ""⟩)] none none
      ⟨fun _ _ _ => none, 1, [], 0⟩ 32
      = resolve_sync_core "p" [("p", ⟨blank_opt (some ""), blank_opt (some "")⟩)]
          none none ⟨fun _ _ _ => none, 1, [], 0⟩ 32 :=
  c10_blank_fields_fall_through "p" [] none none
    ⟨fun _ _ _ => none, 1, [], 0⟩ 32 ⟨some "", some ""⟩

/-- Claim C2: for a package absent from the curated table, from the
package-to-desktop map, and from the desktop-entry index, and with no cached
entry for the fallback key, the synchronous resolution returns the package
name itself as the label and whatever the active theme yields for the generic
fallback icon name (possibly absent). -/
theorem c2_total_fallback (pkg : String) (curated : SMap String CuratedEntry)
    (pm : Option (SMap String String)) (idx : Option DIndexState)
    (st : IconState) (size : Nat)
    (hcur : slook curated pkg = none)
    (hpm : (pm.bind fun m => slook m pkg) = none)
    (hidx : (idx.bind fun d => best_guess_value d pkg) = none)
    (hcache : slook st.cache (ICON_FALLBACK, size, st.scale) = none) :
    (resolve_sync_core pkg curated pm idx st size).1
      = (pkg, st.theme ICON_FALLBACK size st.scale) := by
  have hw : _resolve_label_and_icon_name_worker pkg curated pm idx
      = (pkg, none) := by
    unfold _resolve_label_and_icon_name_worker
    rw [hcur]
    have hs2 : _worker_step2 pkg pm idx none none = (none, none) := by
      unfold _worker_step2
      cases pm with
      | none => simp [truthy]
      | some m =>
        have hm : slook m pkg = none := by simpa using hpm
        simp [truthy, hm]
    have hs3 : _worker_step3 pkg idx none none = (none, none) := by
      unfold _worker_step3
      cases idx with
      | none => simp [truthy, _friendly_name_guess, _icon_name_guess]
      | some d =>
        have hd : best_guess_value d pkg = none := by simpa using hidx
        simp [truthy, _friendly_name_guess, _icon_name_guess, hd]
    simp only [Option.getD_none]
    rw [hs2]
    dsimp only
    rw [hs3]
    dsimp only
    rw [if_neg (by simp [truthy])]
  unfold resolve_sync_core
  rw [hw]
  dsimp only
  have hload : (_load_icon_pixbuf_core st none size).1
      = st.theme ICON_FALLBACK size st.scale := by
    unfold _load_icon_pixbuf_core
    dsimp only
    rw [show _effective_icon_name none = ICON_FALLBACK from rfl, hcache]
    dsimp only
    cases h : st.theme ICON_FALLBACK size st.scale with
    | some p => simp [h]
    | none => simp [h]
  rw [hload]

/-- Claim C2, witness: `"unknown-pkg"` is in no source; a theme that only
knows the fallback icon yields the fallback pixbuf and the package name as
label. -/
theorem c2_witness :
    (resolve_sync_core "unknown-pkg" ACCESSORIES_MAP
        (some [("a", "/usr/local/share/applications/a.desktop")])
        (some ⟨[("other", ⟨some "Other", some "other", "other.desktop"⟩)], []⟩)
        ⟨fun n _ _ => if n = ICON_FALLBACK then some 7 else none, 2, [], 0⟩
        32).1
      = ("unknown-pkg", some 7) := by
  have h := c2_total_fallback "unknown-pkg" ACCESSORIES_MAP
    (some [("a", "/usr/local/share/applications/a.desktop")])
    (some ⟨[("other", ⟨some "Other", some "other", "other.desktop"⟩)], []⟩)
    ⟨fun n _ _ => if n = ICON_FALLBACK then some 7 else none, 2, [], 0⟩
    32 (by decide) (by decide) (by decide) (by decide)
  rw [h]
  decide

theorem c4_tok_inj {i j : Nat} (h : c4_tok i = c4_tok j) : i = j := by
  have h1 := congrArg String.data h
  simp only [c4_tok] at h1
  have h2 := congrArg List.length h1
  simpa using h2

theorem c4_tok_ne_b (i : Nat) : c4_tok i ≠ "b" := by
  intro h
  have hd := congrArg String.data h
  simp only [c4_tok] at hd
  cases i with
  | zero => cases hd
  | succ n =>
    rw [List.replicate_succ] at hd
    injection hd with h1 h2
    exact absurd h1 (by decide)

theorem c4_slook_filler_none (k : Nat) (M : List (String × Option DRecord))
    (hM : ∀ x ∈ M, x ∈ ((List.range k).reverse.map
        (fun i => (c4_tok i, (none : Option DRecord))))
      ++ [("b", (none : Option DRecord))]) :
    slook M (c4_tok k) = none := by
  unfold slook
  have hf : M.find? (fun p => decide (p.1 = c4_tok k)) = none := by
    rw [List.find?_eq_none]
    intro x hx
    simp only [decide_eq_true_eq]
    intro hxk
    rcases List.mem_append.mp (hM x hx) with h1 | h2
    · obtain ⟨i, hi, hxi⟩ := List.mem_map.mp h1
      have hik : i < k := List.mem_range.mp (List.mem_reverse.mp hi)
      rw [← hxi] at hxk
      exact absurd (c4_tok_inj hxk) (Nat.ne_of_lt hik)
    · rw [List.mem_singleton.mp h2] at hxk
      exact c4_tok_ne_b k hxk.symm
  rw [hf]
  rfl

theorem stepEvent_write_eq (st : DIndexState) (u : String) (r : DRecord) :
    stepEvent st (IndexEvent.write u r) = ⟨sput st.index u r, st.memo⟩ := rfl

theorem c4_step_eq (k : Nat) (M : List (String × Option DRecord))
    (hmiss : slook M (c4_tok k) = none) :
    stepEvent ⟨[], M⟩ (IndexEvent.query (c4_tok k))
      = ⟨[], ((c4_tok k, (none : Option DRecord)) :: M).take LRU_MAXSIZE⟩ := by
  show (best_guess_run ⟨[], M⟩ (c4_tok k)).2 = _
  unfold best_guess_run
  dsimp only
  rw [hmiss]
  rfl

theorem c4_fold_eq (k : Nat) :
    (c4_queries k).foldl stepEvent ⟨[], [("b", (none : Option DRecord))]⟩
      = ⟨[], (((List.range k).reverse.map
            (fun i => (c4_tok i, (none : Option DRecord))))
          ++ [("b", (none : Option DRecord))]).take LRU_MAXSIZE⟩ := by
  induction k with
  | zero =>
    rw [show c4_queries 0 = [] from rfl, List.foldl_nil,
      show (((List.range 0).reverse.map
            (fun i => (c4_tok i, (none : Option DRecord))))
          ++ [("b", (none : Option DRecord))]).take LRU_MAXSIZE
        = [("b", (none : Option DRecord))] from by decide]
  | succ k ihk =>
    rw [show c4_queries (k + 1)
          = c4_queries k ++ [IndexEvent.query (c4_tok k)] from by
        unfold c4_queries
        rw [List.range_succ, List.map_append]
        rfl,
      List.foldl_append, ihk, List.foldl_cons, List.foldl_nil]
    have hmiss : slook ((((List.range k).reverse.map
          (fun i => (c4_tok i, (none : Option DRecord))))
        ++ [("b", (none : Option DRecord))]).take LRU_MAXSIZE)
        (c4_tok k) = none := by
      refine c4_slook_filler_none k _ ?_
      intro x hx
      exact List.take_subset _ _ hx
    rw [c4_step_eq k _ hmiss]
    congr 1
    rw [take_cons_take]
    congr 1
    rw [show (List.range (k + 1)).reverse = k :: (List.range k).reverse from by
        rw [List.range_succ, List.reverse_append]
        rfl]
    rfl

theorem c4_after_fill :
    (c4_queries LRU_MAXSIZE).foldl stepEvent
        ⟨[], [("b", (none : Option DRecord))]⟩
      = ⟨[], (List.range LRU_MAXSIZE).reverse.map
          (fun i => (c4_tok i, (none : Option DRecord)))⟩ := by
  rw [c4_fold_eq]
  have hlen : ((List.range LRU_MAXSIZE).reverse.map
      (fun i => (c4_tok i, (none : Option DRecord)))).length = LRU_MAXSIZE := by
    simp
  rw [List.take_append_eq_append_take,
    List.take_of_length_le (Nat.le_of_eq hlen), hlen, Nat.sub_self,
    List.take_zero, List.append_nil]

/-- Claim C4, counterexample: the first call best_guess("b") on the pristine
state returns absent; then 4096 distinct other tokens are queried, filling
the LRU cache (maxsize 4096) and evicting the entry for "b"; the background
build then writes an index record for "b". The next best_guess("b") misses
the memo, re-reads the index and returns the record — a different result
than the first call, refuting process-lifetime memoization. -/
theorem c4_counterexample :
    (best_guess_run (runEvents (([] : List IndexEvent)
          ++ IndexEvent.query "b"
            :: (c4_queries LRU_MAXSIZE
              ++ [IndexEvent.write "b" ⟨none, none, "b.desktop"⟩]))) "b").1
      ≠ (best_guess_run (runEvents ([] : List IndexEvent)) "b").1 := by
  have h1 : runEvents (([] : List IndexEvent)
        ++ IndexEvent.query "b"
          :: (c4_queries LRU_MAXSIZE
            ++ [IndexEvent.write "b" ⟨none, none, "b.desktop"⟩]))
      = stepEvent ((c4_queries LRU_MAXSIZE).foldl stepEvent
          ⟨[], [("b", (none : Option DRecord))]⟩)
          (IndexEvent.write "b" ⟨none, none, "b.desktop"⟩) := by
    unfold runEvents
    rw [List.nil_append, List.foldl_cons,
      show stepEvent ⟨[], []⟩ (IndexEvent.query "b")
        = (⟨[], [("b", (none : Option DRecord))]⟩ : DIndexState) from by decide,
      List.foldl_append, List.foldl_cons, List.foldl_nil]
  rw [h1, c4_after_fill]
  have h2 : slook ((List.range LRU_MAXSIZE).reverse.map
      (fun i => (c4_tok i, (none : Option DRecord)))) "b" = none := by
    unfold slook
    have hf : ((List.range LRU_MAXSIZE).reverse.map
        (fun i => (c4_tok i, (none : Option DRecord)))).find?
          (fun p => decide (p.1 = "b")) = none := by
      rw [List.find?_eq_none]
      intro x hx
      simp only [decide_eq_true_eq]
      obtain ⟨i, hi, hxi⟩ := List.mem_map.mp hx
      rw [← hxi]
      exact c4_tok_ne_b i
    rw [hf]
    rfl
  have h3 : (best_guess_run
      ⟨[("b", (⟨none, none, "b.desktop"⟩ : DRecord))],
        (List.range LRU_MAXSIZE).reverse.map
          (fun i => (c4_tok i, (none : Option DRecord)))⟩ "b").1
      = some ⟨none, none, "b.desktop"⟩ := by
    unfold best_guess_run
    dsimp only
    rw [h2]
    dsimp only
    rw [slook_cons]
    simp
  rw [stepEvent_write_eq]
  dsimp only [sput]
  rw [h3, show (best_guess_run (runEvents ([] : List IndexEvent)) "b").1
      = none from rfl]
  exact Option.some_ne_none _

/-- Claim C4 (amended): best_guess is callable on the pristine module state
present before any build activity (then returning absent), and is memoized
per unique token within the lru_cache bound: a later call of best_guess(t)
returns the same result as an earlier call of best_guess(t) whenever fewer
than 4096 best_guess calls occur between the two, regardless of interleaved
index writes. -/
theorem c4_lru_memoized (t : String) (evs₁ evs₂ : List IndexEvent)
    (hq : queryCount evs₂ < LRU_MAXSIZE) :
    (best_guess_run (runEvents (evs₁ ++ IndexEvent.query t :: evs₂)) t).1
      = (best_guess_run (runEvents evs₁) t).1
    ∧ (best_guess_run ⟨[], []⟩ t).1 = none := by
  constructor
  · have hsplit : runEvents (evs₁ ++ IndexEvent.query t :: evs₂)
        = evs₂.foldl stepEvent (stepEvent (runEvents evs₁) (IndexEvent.query t)) := by
      unfold runEvents
      rw [List.foldl_append]
      rfl
    rw [hsplit]
    obtain ⟨B0, hB0⟩ := first_query_decomp (runEvents evs₁) t
    obtain ⟨A₃, B₃, hmem, hA₃⟩ := lru_preserved evs₂
      (stepEvent (runEvents evs₁) (IndexEvent.query t)) [] B0 t
      ((best_guess_run (runEvents evs₁) t).1) hB0 (by simp)
      (by simp only [List.length_nil]; omega)
    refine best_guess_run_of_memo _ t _ ?_
    rw [hmem]
    exact slook_append_first A₃ B₃ t _ hA₃
  · rfl

/-- Claim C4, witness for the amended statement: a later call separated from
an earlier one by one index write and one other query (far below the 4096
bound) returns the earlier call's result. -/
theorem c4_witness :
    queryCount [IndexEvent.write "x" ⟨some "X", none, "x.desktop"⟩,
        IndexEvent.query "y"] < LRU_MAXSIZE
    ∧ (best_guess_run (runEvents ([IndexEvent.query "y"]
          ++ IndexEvent.query "x"
            :: [IndexEvent.write "x" ⟨some "X", none, "x.desktop"⟩,
                IndexEvent.query "y"])) "x").1
      = (best_guess_run (runEvents [IndexEvent.query "y"]) "x").1 :=
  ⟨by decide, (c4_lru_memoized "x" [IndexEvent.query "y"]
      [IndexEvent.write "x" ⟨some "X", none, "x.desktop"⟩,
       IndexEvent.query "y"] (by decide)).1⟩

/-- Claim C5: calling the synchronous resolution twice with the same package,
table, indices and size, with no intervening theme or scale change, yields
the very same (label, pixbuf) pair and final state the second time; the
second call's pixbuf is exactly the value the first call left in the cache
under the computed key (also when that value is absent), and the checked API
returns this result on the main thread. -/
theorem c5_second_call_cache_hit (pkg : String)
    (curated : SMap String CuratedEntry) (pm : Option (SMap String String))
    (idx : Option DIndexState) (st : IconState) (size : Nat) :
    resolve_sync_core pkg curated pm idx
        (resolve_sync_core pkg curated pm idx st size).2 size
      = resolve_sync_core pkg curated pm idx st size
    ∧ slook ((resolve_sync_core pkg curated pm idx st size).2).cache
        (_effective_icon_name
            (_resolve_label_and_icon_name_worker pkg curated pm idx).2,
          size, st.scale)
        = some (resolve_sync_core pkg curated pm idx st size).1.2
    ∧ resolve_label_and_icon_sync true pkg curated pm idx st size
        = Except.ok (resolve_sync_core pkg curated pm idx st size) := by
  have hc := load_core_caches st
    (_resolve_label_and_icon_name_worker pkg curated pm idx).2 size
  have hhit : slook ((_load_icon_pixbuf_core st
        (_resolve_label_and_icon_name_worker pkg curated pm idx).2 size).2).cache
      (_effective_icon_name
          (_resolve_label_and_icon_name_worker pkg curated pm idx).2,
        size,
        ((_load_icon_pixbuf_core st
          (_resolve_label_and_icon_name_worker pkg curated pm idx).2 size).2).scale)
      = some ((_load_icon_pixbuf_core st
          (_resolve_label_and_icon_name_worker pkg curated pm idx).2 size).1) := by
    rw [hc.2]
    exact hc.1
  have h2 := load_core_hit _
    (_resolve_label_and_icon_name_worker pkg curated pm idx).2 size _ hhit
  refine ⟨?_, ?_, ?_⟩
  · unfold resolve_sync_core
    dsimp only
    rw [h2]
  · exact hc.1
  · rfl

/-- Claim C6: a display-scale rebuild or an icon-theme-name change clears the
whole cache, so the next load for any key performs a fresh theme lookup (the
miss counter increases); and a cache entry recorded under a different scale
factor than the current one is invisible to a request, because the cache key
includes the current scale. -/
theorem c6_invalidation_and_scale_keying (display : Option (Option Nat))
    (st : IconState) (i : Option String) (s : Nat) (n : String)
    (sz sc : Nat) (v : Option Pixbuf) :
    (_load_icon_pixbuf_core (_rebuild_scale_and_clear_cache display st) i s).2.misses
      = st.misses + 1
    ∧ (_load_icon_pixbuf_core (_on_icon_theme_change st) i s).2.misses
      = st.misses + 1
    ∧ (sc ≠ st.scale →
        (_load_icon_pixbuf_core
            { st with cache := ((n, sz, sc), v) :: st.cache } i s).1
          = (_load_icon_pixbuf_core st i s).1) := by
  refine ⟨rfl, rfl, ?_⟩
  intro h
  have hne : ((n, sz, sc) : IconKey) ≠ (_effective_icon_name i, s, st.scale) := by
    intro he
    exact h (congrArg (fun q => q.2.2) he)
  have hk : slook (((n, sz, sc), v) :: st.cache)
      (_effective_icon_name i, s, st.scale)
      = slook st.cache (_effective_icon_name i, s, st.scale) := by
    rw [slook_cons, if_neg hne]
  unfold _load_icon_pixbuf_core
  dsimp only
  rw [hk]
  cases h2 : slook st.cache (_effective_icon_name i, s, st.scale) <;> rfl

/-- Claim C6, witness: with scale 2 current, an entry cached under scale 3
does not affect the result. -/
theorem c6_witness :
    ((3 : Nat) ≠ (2 : Nat))
    ∧ (_load_icon_pixbuf_core
        ⟨fun _ _ _ => some 1, 2, (("vlc", 32, 3), some 9) :: [], 0⟩
        (some "vlc") 32).1
      = (_load_icon_pixbuf_core ⟨fun _ _ _ => some 1, 2, [], 0⟩
        (some "vlc") 32).1 := by
  refine ⟨by decide, ?_⟩
  exact (c6_invalidation_and_scale_keying none
    ⟨fun _ _ _ => some 1, 2, [], 0⟩ (some "vlc") 32 "vlc" 32 3 (some 9)).2.2
    (by decide)

/-- Claim C7: every modelled icon-cache operation — runtime initialization,
pixbuf resolution, and hence the synchronous label-and-icon resolution —
invoked off the main thread fails immediately with the thread-identity
assertion error instead of proceeding. -/
theorem c7_thread_affinity (display : Option (Option Nat)) (theme : Theme)
    (st : IconState) (i : Option String) (s : Nat) (pkg : String)
    (curated : SMap String CuratedEntry) (pm : Option (SMap String String))
    (idx : Option DIndexState) (size : Nat) :
    init_icon_runtime false display theme
      = Except.error "GTK must be accessed on the main thread"
    ∧ _load_icon_pixbuf_main false st i s
      = Except.error "GTK must be accessed on the main thread"
    ∧ resolve_label_and_icon_sync false pkg curated pm idx st size
      = Except.error "GTK must be accessed on the main thread" :=
  ⟨rfl, rfl, rfl⟩

/-- Claim C8: for every behaviour of the external queries (exceptions,
empty or missing output, arbitrary text) and of the filesystem, both
background builds terminate (they are total functions), set their readiness
signal exactly once, and leave a well-formed map — in particular every value
of the package-to-desktop map is a path ending in the desktop-entry
extension; no failure escapes to callers since the build result is always a
plain `BuildResult`, never an error. -/
theorem c8_builds_always_ready (env : RunEnv) (home locale : String)
    (fs : DesktopFS) :
    (build_pkg_map_async env).readySets = 1
    ∧ (build_index_async home locale fs).readySets = 1
    ∧ (build_pkg_map_async env).map.all
        (fun p => strEndsWith p.2 ".desktop") = true := by
  refine ⟨?_, rfl, ?_⟩
  · unfold build_pkg_map_async
    by_cases h : (!truthyStr (_run env ["pkg", "query", "%n"])) = true
    · rw [if_pos h]
    · rw [if_neg h]
  · unfold build_pkg_map_async
    by_cases h : (!truthyStr (_run env ["pkg", "query", "%n"])) = true
    · rw [if_pos h]
      rfl
    · rw [if_neg h]
      exact pkg_fold_all env _ [] rfl

/-- Claim C9: the per-package scan keeps the first listing line whose
stripped form ends in `.desktop` (first part), a package none of whose lines
qualify contributes nothing (second part), and for installed packages
`a`, `b` where only `a` owns a desktop entry, the built map binds `a` to that
path and has no entry for `b` (third part). -/
theorem c9_first_desktop_line_wins :
    (∀ (env : RunEnv) (pkg : String) (pre : List String) (p : String)
        (post : List String) (q : String),
      truthyStr (_run env ["pkg", "info", "-l", pkg]) = true →
      splitOnChar (_run env ["pkg", "info", "-l", pkg]) '\n' = pre ++ p :: post →
      (∀ l ∈ pre, _desktop_line l = none) →
      _desktop_line p = some q →
      _process_package env pkg = (pkg, some q))
    ∧ (∀ (env : RunEnv) (pkg : String),
      (∀ l ∈ splitOnChar (_run env ["pkg", "info", "-l", pkg]) '\n',
        _desktop_line l = none) →
      _process_package env pkg = (pkg, none))
    ∧ (∀ (env : RunEnv) (q : String),
      _run env ["pkg", "query", "%n"] = "a\nb" →
      _process_package env "a" = ("a", some q) →
      truthyStr q = true →
      _process_package env "b" = ("b", none) →
      slook (build_pkg_map_async env).map "a" = some q
      ∧ slook (build_pkg_map_async env).map "b" = none) := by
  refine ⟨?_, ?_, ?_⟩
  · intro env pkg pre p post q ht hsplit hpre hp
    unfold _process_package
    dsimp only
    rw [if_neg (by simp [ht]), hsplit, findSome?_first _ pre p post q hpre hp]
  · intro env pkg hall
    unfold _process_package
    dsimp only
    by_cases ht : (!truthyStr (_run env ["pkg", "info", "-l", pkg])) = true
    · rw [if_pos ht]
    · rw [if_neg ht, findSome?_none _ _ hall]
  · intro env q hq ha htq hb
    unfold build_pkg_map_async
    dsimp only
    rw [hq]
    rw [if_neg (by decide)]
    have hsplit : (splitOnChar "a\nb" '\n').filter truthyStr = ["a", "b"] := by
      decide
    rw [hsplit]
    have hfold : (["a", "b"].foldl (_pkg_map_insert env) [])
        = [("a", q)] := by
      have h1 : _pkg_map_insert env [] "a" = [("a", q)] := by
        unfold _pkg_map_insert
        rw [ha]
        dsimp only
        rw [if_pos htq]
        rfl
      have h2 : _pkg_map_insert env [("a", q)] "b" = [("a", q)] := by
        unfold _pkg_map_insert
        rw [hb]
      show _pkg_map_insert env (_pkg_map_insert env [] "a") "b" = [("a", q)]
      rw [h1, h2]
    rw [hfold]
    constructor
    · rw [slook_cons, if_pos rfl]
    · rw [slook_cons, if_neg (by decide)]
      rfl

/-- Claim C9, witness: concrete package database with packages `a` and `b`
where only `a` installs a desktop entry. -/
theorem c9_witness :
    slook (build_pkg_map_async (fun cmd =>
        if cmd = ["pkg", "query", "%n"] then Except.ok "a\nb"
        else if cmd = ["pkg", "info", "-l", "a"] then
          Except.ok "\t/usr/local/bin/a\n\t/usr/local/share/applications/a.desktop\n\t/usr/local/share/doc/a.desktop.txt"
        else Except.error ())).map "a"
      = some "/usr/local/share/applications/a.desktop"
    ∧ slook (build_pkg_map_async (fun cmd =>
        if cmd = ["pkg", "query", "%n"] then Except.ok "a\nb"
        else if cmd = ["pkg", "info", "-l", "a"] then
          Except.ok "\t/usr/local/bin/a\n\t/usr/local/share/applications/a.desktop\n\t/usr/local/share/doc/a.desktop.txt"
        else Except.error ())).map "b"
      = none :=
  c9_first_desktop_line_wins.2.2 (fun cmd =>
      if cmd = ["pkg", "query", "%n"] then Except.ok "a\nb"
      else if cmd = ["pkg", "info", "-l", "a"] then
        Except.ok "\t/usr/local/bin/a\n\t/usr/local/share/applications/a.desktop\n\t/usr/local/share/doc/a.desktop.txt"
      else Except.error ())
    "/usr/local/share/applications/a.desktop"
    (by decide) (by decide) (by decide) (by decide)

/-- Claim C3, counterexample: the directory tuple is not scanned in the order
user-local, then system-local, then system-wide; the source lists the
system-local directory first and the user-local directory last. -/
theorem c3_counterexample :
    _DESKTOP_DIRS "/home/user"
      ≠ [user_local_dir "/home/user", system_local_dir, system_wide_dir] := by
  decide

/-- Claim C3 (amended): the index build scans its fixed directory set in the
order system-local, then system-wide, then user-local, and a later insertion
for the same lookup token overwrites an earlier one (last-writer-wins), so
the later-scanned user-local directory's record is the one retained for a
duplicated token. -/
theorem c3_scan_order_last_writer_wins :
    (∀ home, _DESKTOP_DIRS home
      = [system_local_dir, system_wide_dir, user_local_dir home])
    ∧ (∀ (home locale : String) (fs : DesktopFS) (t : String) (r : DRecord)
        (l₁ l₂ : List (String × DRecord)),
      build_insertions home locale fs = l₁ ++ (t, r) :: l₂ →
      (∀ r' , (t, r') ∈ l₂ → False) →
      slook (build_index_async home locale fs).map t = some r) := by
  constructor
  · intro home
    rfl
  · intro home locale fs t r l₁ l₂ hdec hno
    unfold build_index_async
    dsimp only
    rw [slook_foldl_sput, hdec]
    unfold lookupLast
    rw [List.reverse_append, List.reverse_cons, List.find?_append,
      List.find?_append]
    have h2 : l₂.reverse.find? (fun p => decide (p.1 = t)) = none := by
      rw [List.find?_eq_none]
      intro x hx
      simp only [decide_eq_true_eq]
      intro hxt
      have hxm : (t, x.2) ∈ l₂ := by
        have hx2 : x ∈ l₂ := List.mem_reverse.mp hx
        have hxe : (t, x.2) = x := by
          rw [← hxt]
        rw [hxe]
        exact hx2
      exact hno x.2 hxm
    rw [h2]
    have h3 : [((t : String), r)].find? (fun p => decide (p.1 = t))
        = some (t, r) := by
      simp [List.find?]
    rw [h3]
    rfl

/-- Claim C3, witness for the amended statement: a token present both in the
system-local directory and in the user-local directory resolves to the
user-local record after the build. -/
theorem c3_witness :
    slook (build_index_async "/home/user" "en" (fun dir =>
        if dir = "/usr/local/share/applications" then
          some [Except.ok ⟨"/usr/local/share/applications/app.desktop", true,
            [("Name", "System App")]⟩]
        else if dir = "/home/user/.local/share/applications" then
          some [Except.ok ⟨"/home/user/.local/share/applications/app.desktop",
            true, [("Name", "User App")]⟩]
        else some [])).map "app.desktop"
      = some ⟨some "User App", none, "app.desktop"⟩ :=
  c3_scan_order_last_writer_wins.2 "/home/user" "en" (fun dir =>
      if dir = "/usr/local/share/applications" then
        some [Except.ok ⟨"/usr/local/share/applications/app.desktop", true,
          [("Name", "System App")]⟩]
      else if dir = "/home/user/.local/share/applications" then
        some [Except.ok ⟨"/home/user/.local/share/applications/app.desktop",
          true, [("Name", "User App")]⟩]
      else some [])
    "app.desktop" ⟨some "User App", none, "app.desktop"⟩
    [("app.desktop", ⟨some "System App", none, "app.desktop"⟩)] []
    (by decide) (fun r' h => by cases h)
